import Mathlib

/-!
Shallow embedding of `src/utils.py`.

The file has two parts:

* a model of Python runtime values and of `extract_agent_response`
  (lines 12-37 of `utils.py`), and
* a model of the in-memory SQLite log store built by
  `create_logs_database` (lines 54-96) together with the fragment of
  SQLite query processing exercised by `execute_query` (lines 109-121).

Machine-level Python behaviour (attribute errors, `dict.get` arity,
`datetime.strptime` with format `%y/%m/%d %H:%M:%S`, the sqlite3
adapter storing a `datetime` as its ISO string) is embedded explicitly,
following the documented semantics of CPython and sqlite3.
-/

/-! ### Part 1: Python values and `extract_agent_response` -/

/-- A Python runtime value, restricted to the shapes `extract_agent_response`
distinguishes: ints, strings, lists, dicts with string keys, framework
message objects exposing a `.content` attribute (`Msg`), and framework
objects exposing a zero-argument callable `.get` method (`Getter`). -/
inductive PyVal where
  | vint : Int → PyVal
  | vstr : String → PyVal
  | vlist : List PyVal → PyVal
  | vdict : List (String × PyVal) → PyVal
  | vmsg : String → PyVal
  | vgetter : PyVal → PyVal

/-- Outcome of running a Python function: a returned string, or an uncaught
exception carrying its message. -/
inductive PyResult where
  | ok : String → PyResult
  | exn : String → PyResult
deriving DecidableEq, Repr

mutual

/-- Python `repr` of a value (for our dict/list/string shapes this is also
what `str` produces, except on strings themselves). -/
def pyRepr : PyVal → String
  | .vint n => toString n
  | .vstr s => "\x27" ++ s ++ "\x27"
  | .vlist l => "[" ++ String.intercalate ", " (pyReprList l) ++ "]"
  | .vdict l => "\x7b" ++ String.intercalate ", " (pyReprPairs l) ++ "\x7d"
  | .vmsg s => "Msg(content=\x27" ++ s ++ "\x27)"
  | .vgetter p => "Getter(" ++ pyRepr p ++ ")"

/-- Reprs of the elements of a list value. -/
def pyReprList : List PyVal → List String
  | [] => []
  | v :: vs => pyRepr v :: pyReprList vs

/-- Reprs of the `key: value` pairs of a dict value. -/
def pyReprPairs : List (String × PyVal) → List String
  | [] => []
  | (k, v) :: ps => ("\x27" ++ k ++ "\x27: " ++ pyRepr v) :: pyReprPairs ps

end

/-- Python `str` of a value. -/
def pyStr : PyVal → String
  | .vstr s => s
  | v => pyRepr v

/-- Python `type(v)` rendered as in an f-string. -/
def pyTypeName : PyVal → String
  | .vint _ => "<class \x27int\x27>"
  | .vstr _ => "<class \x27str\x27>"
  | .vlist _ => "<class \x27list\x27>"
  | .vdict _ => "<class \x27dict\x27>"
  | .vmsg _ => "<class \x27Msg\x27>"
  | .vgetter _ => "<class \x27Getter\x27>"

/-- Short type name as it appears inside Python error messages. -/
def pyTypeShort : PyVal → String
  | .vint _ => "\x27int\x27"
  | .vstr _ => "\x27str\x27"
  | .vlist _ => "\x27list\x27"
  | .vdict _ => "\x27dict\x27"
  | .vmsg _ => "\x27Msg\x27"
  | .vgetter _ => "\x27Getter\x27"

/-- Python dict key lookup (`d[k]` / `k in d`), first matching key. -/
def dictLookup : List (String × PyVal) → String → Option PyVal
  | [], _ => none
  | (k, v) :: rest, key => if k = key then some v else dictLookup rest key

/-- Python truthiness (`if messages:`). -/
def pyTruthy : PyVal → Bool
  | .vint n => n ≠ 0
  | .vstr s => s ≠ ""
  | .vlist l => !l.isEmpty
  | .vdict l => !l.isEmpty
  | .vmsg _ => true
  | .vgetter _ => true

/-- Python `v[-1]`: last element of a sequence, or the exception the
subscript raises on non-sequences. -/
def lastItem : PyVal → Except String PyVal
  | .vlist l =>
    match l.getLast? with
    | some x => .ok x
    | none => .error "IndexError: list index out of range"
  | .vstr s =>
    match s.toList.getLast? with
    | some c => .ok (.vstr (String.mk [c]))
    | none => .error "IndexError: string index out of range"
  | .vdict _ => .error "KeyError: -1"
  | v => .error ("TypeError: " ++ pyTypeShort v ++ " object is not subscriptable")

/-- Python attribute access `v.content`: only message objects have it. -/
def getContent : PyVal → Except String String
  | .vmsg s => .ok s
  | v => .error ("AttributeError: " ++ pyTypeShort v ++ " object has no attribute \x27content\x27")

/-- Python `hasattr(v, "get")`: dicts and `Getter` objects have a `get`
attribute. -/
def hasattrGet : PyVal → Bool
  | .vdict _ => true
  | .vgetter _ => true
  | _ => false

/-- Python `v.get()` called with zero arguments: `dict.get` requires at
least one argument, a `Getter` returns its payload.  The error carries
`str(e)`, which is how the caught exception is rendered in the f-string. -/
def callGet : PyVal → Except String PyVal
  | .vdict _ => .error "get expected at least 1 argument, got 0"
  | .vgetter p => .ok p
  | v => .error (pyTypeShort v ++ " object has no attribute \x27get\x27")

/-- The `else` branch of `extract_agent_response` (utils.py lines 31-37):
`try: content = result.get() if hasattr(result, "get") else result;
return str(content)` with the `except` clause producing the
`Error accessing result` string.  This branch never raises. -/
def tryAccess (result : PyVal) : PyResult :=
  if hasattrGet result then
    match callGet result with
    | .ok content => .ok (pyStr content)
    | .error e =>
      .ok ("Error accessing result: " ++ e ++ "\nResult type: " ++ pyTypeName result
            ++ "\nResult: " ++ pyStr result)
  else .ok (pyStr result)

/-- Model of `extract_agent_response` (utils.py lines 12-37).  The
`messages` branch (lines 23-30) is not protected by any `try`, so the
attribute/subscript accesses there can raise. -/
def extract_agent_response (result : PyVal) : PyResult :=
  match result with
  | .vdict l =>
    match dictLookup l "messages" with
    | some messages =>
      if pyTruthy messages then
        match lastItem messages with
        | .ok last_message =>
          match getContent last_message with
          | .ok s => .ok s
          | .error e => .exn e
        | .error e => .exn e
      else .ok "No messages found in result"
    | none => tryAccess (.vdict l)
  | r => tryAccess r

/-- The exact shapes on which `extract_agent_response` raises: a dict whose
`messages` entry is truthy and whose last element either does not exist as
a subscript or lacks a `.content` attribute. -/
def raisesShape : PyVal → Bool
  | .vdict l =>
    match dictLookup l "messages" with
    | some messages =>
      pyTruthy messages &&
        (match lastItem messages with
         | .error _ => true
         | .ok m => match m with
           | .vmsg _ => false
           | _ => true)
    | none => false
  | _ => false

/-! ### Part 2: timestamps -/

/-- A parsed calendar timestamp (the fields of a Python `datetime` that the
format `%y/%m/%d %H:%M:%S` can produce). -/
structure DateTime where
  year : Nat
  month : Nat
  day : Nat
  hour : Nat
  minute : Nat
  second : Nat
deriving DecidableEq, Repr

/-- Gregorian leap-year test, as used by `datetime`. -/
def isLeap (y : Nat) : Bool :=
  (y % 4 == 0 && y % 100 != 0) || y % 400 == 0

/-- Number of days in a month, as validated by the `datetime` constructor. -/
def daysInMonth (y m : Nat) : Nat :=
  if m = 2 then (if isLeap y then 29 else 28)
  else if m = 4 || m = 6 || m = 9 || m = 11 then 30
  else 31

/-- Decimal digit value of a character, if it is a digit. -/
def digit? (c : Char) : Option Nat :=
  if 48 ≤ c.toNat ∧ c.toNat ≤ 57 then some (c.toNat - 48) else none

/-- Consume exactly two digits (the `%y` directive matches `\d\d`). -/
def parse2Digits : List Char → Option (Nat × List Char)
  | c1 :: c2 :: rest =>
    match digit? c1, digit? c2 with
    | some a, some b => some (10 * a + b, rest)
    | _, _ => none
  | _ => none

/-- Consume a one-or-two-digit numeric field the way `strptime`'s regular
expressions for `%m`, `%d`, `%H`, `%M`, `%S` do: prefer two digits when
their combined value passes `two`, otherwise accept one digit passing
`one`. -/
def parseNumField (two one : Nat → Bool) : List Char → Option (Nat × List Char)
  | c1 :: c2 :: rest =>
    match digit? c1, digit? c2 with
    | some a, some b =>
      if two (10 * a + b) then some (10 * a + b, rest)
      else if one a then some (a, c2 :: rest)
      else none
    | some a, none => if one a then some (a, c2 :: rest) else none
    | none, _ => none
  | [c1] =>
    match digit? c1 with
    | some a => if one a then some (a, []) else none
    | none => none
  | [] => none

/-- Consume one expected literal character. -/
def expectChar (c : Char) : List Char → Option (List Char)
  | x :: rest => if x = c then some rest else none
  | [] => none

/-- Model of `datetime.strptime(s, "%y/%m/%d %H:%M:%S")` (utils.py line 81):
`%y` is exactly two digits mapped to 2000-2068 / 1969-1999, the other
fields are one or two digits within their ranges, separators are literal,
no trailing characters are allowed, and the `datetime` constructor
validates the day against the month length.  Returns `none` exactly when
`strptime` raises `ValueError`. -/
def parseTimestamp (s : String) : Option DateTime :=
  match parse2Digits s.toList with
  | none => none
  | some (yy, r1) =>
  match expectChar '/' r1 with
  | none => none
  | some r2 =>
  match parseNumField (fun v => 1 ≤ v && v ≤ 12) (fun a => 1 ≤ a) r2 with
  | none => none
  | some (m, r3) =>
  match expectChar '/' r3 with
  | none => none
  | some r4 =>
  match parseNumField (fun v => 1 ≤ v && v ≤ 31) (fun a => 1 ≤ a) r4 with
  | none => none
  | some (d, r5) =>
  match expectChar ' ' r5 with
  | none => none
  | some r6 =>
  match parseNumField (fun v => v ≤ 23) (fun _ => true) r6 with
  | none => none
  | some (h, r7) =>
  match expectChar ':' r7 with
  | none => none
  | some r8 =>
  match parseNumField (fun v => v ≤ 59) (fun _ => true) r8 with
  | none => none
  | some (mi, r9) =>
  match expectChar ':' r9 with
  | none => none
  | some r10 =>
  match parseNumField (fun v => v ≤ 59) (fun _ => true) r10 with
  | none => none
  | some (sec, r11) =>
  if r11 = [] then
    let year := if yy ≤ 68 then 2000 + yy else 1900 + yy
    if d ≤ daysInMonth year m then
      some ⟨year, m, d, h, mi, sec⟩
    else none
  else none

/-- Two-digit zero-padded decimal rendering. -/
def pad2 (n : Nat) : List Char :=
  [Nat.digitChar (n / 10 % 10), Nat.digitChar (n % 10)]

/-- Four-digit zero-padded decimal rendering. -/
def pad4 (n : Nat) : List Char :=
  [Nat.digitChar (n / 1000 % 10), Nat.digitChar (n / 100 % 10),
   Nat.digitChar (n / 10 % 10), Nat.digitChar (n % 10)]

/-- The string the sqlite3 default adapter stores for a `datetime` with zero
microseconds: `str(dt) = "YYYY-MM-DD HH:MM:SS"`. -/
def toIso (d : DateTime) : String :=
  String.mk (pad4 d.year ++ '-' :: pad2 d.month ++ '-' :: pad2 d.day
    ++ ' ' :: pad2 d.hour ++ ':' :: pad2 d.minute ++ ':' :: pad2 d.second)

/-- Read an instant back from a stored `"YYYY-MM-DD HH:MM:SS"` string; the
denotation used to compare the stored cell with the original timestamp. -/
def parseIso (s : String) : Option DateTime :=
  match s.toList with
  | [y1, y2, y3, y4, g1, o1, o2, g2, a1, a2, g3, h1, h2, g4, i1, i2, g5, e1, e2] =>
    if g1 = '-' && g2 = '-' && g3 = ' ' && g4 = ':' && g5 = ':' then
      match digit? y1, digit? y2, digit? y3, digit? y4, digit? o1, digit? o2,
            digit? a1, digit? a2, digit? h1, digit? h2, digit? i1, digit? i2,
            digit? e1, digit? e2 with
      | some b1, some b2, some b3, some b4, some c1, some c2, some d1, some d2,
        some f1, some f2, some j1, some j2, some k1, some k2 =>
        some ⟨1000 * b1 + 100 * b2 + 10 * b3 + b4, 10 * c1 + c2, 10 * d1 + d2,
              10 * f1 + f2, 10 * j1 + j2, 10 * k1 + k2⟩
      | _, _, _, _, _, _, _, _, _, _, _, _, _, _ => none
    else none
  | _ => none

/-! ### Part 3: the log store (`create_logs_database`) -/

/-- One row of the `logs` table created at utils.py lines 60-68.  `id` is the
AUTOINCREMENT primary key; `time` holds the string the sqlite3 adapter
stored for the Python `datetime`. -/
structure LogRecord where
  id : Nat
  spark_app_id : String
  log_message : String
  log_level : String
  time : String
deriving DecidableEq, Repr

/-- One JSON object of an input file.  A `none` field models an object that
lacks that key (so `entry[key]` raises `KeyError`). -/
structure RawEntry where
  application_id : Option String
  message : Option String
  level : Option String
  time : Option String
deriving DecidableEq, Repr

/-- State of one input file as seen by `open` + `json.load`:
absent (`FileNotFoundError`), present but not valid JSON
(`json.JSONDecodeError`), or a JSON array of objects. -/
inductive FileState where
  | absent
  | badJson
  | entries : List RawEntry → FileState
deriving DecidableEq, Repr

/-- The fixed input file list of utils.py line 71. -/
def json_files : List String := ["oom.json", "disk.json", "throttle.json"]

/-- Process one entry of the loop at utils.py lines 79-86: read
`entry["time"]`, parse it with `strptime`, then insert a row with the
other three fields; any missing key or unparsable timestamp raises. -/
def processEntry (nextId : Nat) (e : RawEntry) : Except String LogRecord :=
  match e.time with
  | none => .error "KeyError: \x27time\x27"
  | some ts =>
    match parseTimestamp ts with
    | none => .error ("ValueError: time data \x27" ++ ts ++ "\x27 does not match format \x27%y/%m/%d %H:%M:%S\x27")
    | some d =>
      match e.application_id with
      | none => .error "KeyError: \x27application_id\x27"
      | some aid =>
        match e.message with
        | none => .error "KeyError: \x27message\x27"
        | some msg =>
          match e.level with
          | none => .error "KeyError: \x27level\x27"
          | some lvl => .ok ⟨nextId, aid, msg, lvl, toIso d⟩

/-- Insert the entries of one file in order; `startId` is the next
AUTOINCREMENT id. -/
def loadEntries (startId : Nat) : List RawEntry → Except String (List LogRecord)
  | [] => .ok []
  | e :: rest =>
    match processEntry startId e with
    | .error msg => .error msg
    | .ok r =>
      match loadEntries (startId + 1) rest with
      | .error msg => .error msg
      | .ok rs => .ok (r :: rs)

/-- Result of `create_logs_database`: the table contents, the
`total_entries` counter, and the lines printed. -/
structure LoadResult where
  records : List LogRecord
  total_entries : Nat
  prints : List String
deriving DecidableEq, Repr

/-- The try/except body for one file (utils.py lines 74-92): a missing file
is caught and turns into a warning line; any other exception propagates. -/
def loadFile (acc : LoadResult) (name : String) (st : FileState) : Except String LoadResult :=
  match st with
  | .absent =>
    .ok { acc with prints := acc.prints ++ ["Warning: " ++ name ++ " not found, skipping..."] }
  | .badJson => .error ("JSONDecodeError: " ++ name)
  | .entries es =>
    match loadEntries (acc.records.length + 1) es with
    | .error msg => .error msg
    | .ok rs =>
      .ok { records := acc.records ++ rs,
            total_entries := acc.total_entries + es.length,
            prints := acc.prints ++
              ["Loaded " ++ toString es.length ++ " entries from " ++ name] }

/-- Fold `loadFile` over the remaining files in order. -/
def loadFiles (acc : LoadResult) : List (String × FileState) → Except String LoadResult
  | [] => .ok acc
  | (name, st) :: rest =>
    match loadFile acc name st with
    | .error msg => .error msg
    | .ok acc2 => loadFiles acc2 rest

/-- Model of `create_logs_database` (utils.py lines 54-96), parametrised by
the state of the file system.  Returns the loaded store, or the message of
the uncaught exception that aborted the load. -/
def create_logs_database (fs : String → FileState) : Except String LoadResult :=
  match loadFiles ⟨[], 0, []⟩ (json_files.map (fun n => (n, fs n))) with
  | .error msg => .error msg
  | .ok acc =>
    .ok { acc with prints := acc.prints ++
            ["Total: " ++ toString acc.total_entries ++ " log entries loaded into in-memory database"] }

/-- An entry is well formed when all four keys are present and the timestamp
parses. -/
def wellFormedE (e : RawEntry) : Bool :=
  e.application_id.isSome && e.message.isSome && e.level.isSome &&
    (match e.time with
     | some ts => (parseTimestamp ts).isSome
     | none => false)

/-- A file state that cannot abort the load: absent, or all entries well
formed. -/
def goodFile : FileState → Bool
  | .absent => true
  | .badJson => false
  | .entries es => es.all wellFormedE

/-- The entries a file state contributes. -/
def entriesOf : FileState → List RawEntry
  | .entries es => es
  | _ => []

/-- Total number of entries in the present files. -/
def totalWF (fs : String → FileState) : Nat :=
  (json_files.map (fun n => (entriesOf (fs n)).length)).sum

/-- The line printed for one file during a successful pass over it. -/
def filePrint : String × FileState → String
  | (name, .absent) => "Warning: " ++ name ++ " not found, skipping..."
  | (name, .entries es) => "Loaded " ++ toString es.length ++ " entries from " ++ name
  | (name, .badJson) => "JSONDecodeError: " ++ name

/-! ### Part 4: the query tool (`execute_query`) -/

/-- A cell value returned by the sqlite engine. -/
inductive SqlVal where
  | int : Int → SqlVal
  | text : String → SqlVal
deriving DecidableEq, Repr

/-- Projection list of a parsed SELECT. -/
inductive SelectCols where
  | star
  | countStar
  | col : String → SelectCols
deriving DecidableEq, Repr

/-- A parsed query of the fragment of SQL the notebook exercises:
`SELECT (* | COUNT(*) | column) FROM table [WHERE column = lit]`. -/
structure Query where
  cols : SelectCols
  table : String
  whereEq : Option (String × String)
deriving DecidableEq, Repr

/-- Accumulate the current token (reversed) while scanning the input. -/
def tokenizeAux : List Char → List Char → List String
  | cur, [] => if cur.isEmpty then [] else [String.mk cur.reverse]
  | cur, c :: cs =>
    if c = ' ' then
      if cur.isEmpty then tokenizeAux [] cs
      else String.mk cur.reverse :: tokenizeAux [] cs
    else tokenizeAux (c :: cur) cs

/-- Split a query string into whitespace-separated tokens. -/
def tokenize (q : String) : List String :=
  tokenizeAux [] q.toList

/-- Read a quoted SQL string literal token. -/
def parseLit (t : String) : Option String :=
  match t.toList with
  | '\x27' :: rest =>
    match rest.getLast? with
    | some '\x27' => if rest.length ≥ 1 then some (String.mk (rest.dropLast)) else none
    | _ => none
  | _ => none

/-- Projection token. -/
def parseCols (t : String) : SelectCols :=
  if t = "*" then .star
  else if t = "COUNT(*)" then .countStar
  else .col t

/-- Parse the SQL fragment; anything else is a sqlite syntax error. -/
def parseQuery (q : String) : Except String Query :=
  match tokenize q with
  | ["SELECT", colTok, "FROM", tbl] => .ok ⟨parseCols colTok, tbl, none⟩
  | ["SELECT", colTok, "FROM", tbl, "WHERE", wcol, "=", lit] =>
    match parseLit lit with
    | some v => .ok ⟨parseCols colTok, tbl, some (wcol, v)⟩
    | none => .error ("near \x22" ++ lit ++ "\x22: syntax error")
  | _ => .error "syntax error"

/-- Column names of the `logs` table, from the CREATE TABLE statement at
utils.py lines 60-68. -/
def logsCols : List String := ["id", "spark_app_id", "log_message", "log_level", "time"]

/-- Value of a (resolved) column in a row. -/
def colValue (r : LogRecord) (c : String) : SqlVal :=
  if c = "id" then .int r.id
  else if c = "spark_app_id" then .text r.spark_app_id
  else if c = "log_message" then .text r.log_message
  else if c = "log_level" then .text r.log_level
  else .text r.time

/-- The row `SELECT *` produces, in schema column order. -/
def starRow (r : LogRecord) : List SqlVal :=
  [.int r.id, .text r.spark_app_id, .text r.log_message, .text r.log_level, .text r.time]

/-- Evaluate a parsed query the way sqlite does on the `logs` schema:
resolution errors (unknown table or column) are reported at prepare time,
before any row is touched; rows are produced in insertion order. -/
def evalQuery (recs : List LogRecord) (q : Query) : Except String (List (List SqlVal)) :=
  if q.table ≠ "logs" then .error ("no such table: " ++ q.table)
  else
    match q.whereEq with
    | some (c, _) =>
      if c ∈ logsCols then evalResolved recs q else .error ("no such column: " ++ c)
    | none => evalResolved recs q
where
  /-- Evaluation once the WHERE column is known to resolve. -/
  evalResolved (recs : List LogRecord) (q : Query) : Except String (List (List SqlVal)) :=
    let rows := match q.whereEq with
      | none => recs
      | some (c, v) => recs.filter (fun r => colValue r c == SqlVal.text v)
    match q.cols with
    | .star => .ok (rows.map starRow)
    | .countStar => .ok [[SqlVal.int rows.length]]
    | .col c =>
      if c ∈ logsCols then .ok (rows.map (fun r => [colValue r c]))
      else .error ("no such column: " ++ c)

/-- Model of `execute_query` (utils.py lines 109-121): prepare and run the
query on the store with no try/except, so every engine error propagates
to the caller unchanged. -/
def execute_query (recs : List LogRecord) (q : String) : Except String (List (List SqlVal)) :=
  match parseQuery q with
  | .error e => .error e
  | .ok ast => evalQuery recs ast

/-! ### Auxiliary definitions used in the statements -/

/-- Does `pat` occur at the start of `s`? -/
def listStartsWith : List Char → List Char → Bool
  | [], _ => true
  | _ :: _, [] => false
  | p :: ps, c :: cs => p == c && listStartsWith ps cs

/-- Does `pat` occur as a contiguous substring of `s`? -/
def containsSub (pat s : List Char) : Bool :=
  match s with
  | [] => listStartsWith pat []
  | _ :: rest => listStartsWith pat s || containsSub pat rest

/-- A parsed query that references a nonexistent table or column of the
`logs` schema. -/
def badRef (q : Query) : Bool :=
  (q.table != "logs") ||
  (match q.whereEq with
   | some (c, _) => !(decide (c ∈ logsCols))
   | none => false) ||
  (match q.cols with
   | .col c => !(decide (c ∈ logsCols))
   | _ => false)

/-- Total number of entries contributed by a file list. -/
def sumEntries (l : List (String × FileState)) : Nat :=
  (l.map (fun p => (entriesOf p.2).length)).sum

/-- A concrete file-system state for the C7 witness: two present files with
well-formed entries and one absent file. -/
def fsW : String → FileState := fun n =>
  if n = "oom.json" then
    .entries [⟨some "a1", some "m1", some "ERROR", some "05/01/02 03:04:05"⟩,
              ⟨some "a2", some "m2", some "WARN", some "99/12/31 23:59:58"⟩]
  else if n = "throttle.json" then
    .entries [⟨some "a3", some "m3", some "INFO", some "24/02/29 10:00:00"⟩]
  else .absent

/-! ### Supporting lemmas -/

/-- The protected `else` branch always returns a string. -/
theorem tryAccess_ok (r : PyVal) : ∃ s, tryAccess r = .ok s := by
  cases r <;> exact ⟨_, rfl⟩

/-! ### Claim C1 -/

/-- C1, counterexample: `extract_agent_response` does raise.  On the input
`{"messages": [7]}` the last message is an int without a `.content`
attribute, the access at utils.py line 28 raises `AttributeError`, and no
`try` catches it, so no string is returned. -/
theorem c1_counterexample :
    extract_agent_response (.vdict [("messages", .vlist [.vint 7])]) =
      .exn "AttributeError: \x27int\x27 object has no attribute \x27content\x27" ∧
    ∀ s, extract_agent_response (.vdict [("messages", .vlist [.vint 7])]) ≠ .ok s := by
  refine ⟨rfl, fun s h => ?_⟩
  rw [show extract_agent_response (.vdict [("messages", .vlist [.vint 7])]) =
      .exn "AttributeError: \x27int\x27 object has no attribute \x27content\x27" from rfl] at h
  exact PyResult.noConfusion h

/-- C1, amended: every failure path of `extract_agent_response` outside the
`messages` branch terminates in a returned string; the function raises
exactly on a dict whose truthy `messages` value has a last element without
a `.content` attribute (or no last element at all), and on every other
input it returns a string. -/
theorem c1_extract_returns_string (r : PyVal) (h : raisesShape r = false) :
    ∃ s, extract_agent_response r = .ok s := by
  cases r with
  | vdict l =>
    simp only [raisesShape] at h
    simp only [extract_agent_response]
    cases hm : dictLookup l "messages" with
    | none => simpa [hm] using tryAccess_ok (.vdict l)
    | some messages =>
      simp only [hm] at h ⊢
      cases ht : pyTruthy messages with
      | false => simp [ht]
      | true =>
        simp only [ht, Bool.true_and, if_true] at h ⊢
        cases hl : lastItem messages with
        | error e => simp only [hl] at h; simp at h
        | ok m =>
          simp only [hl] at h ⊢
          cases m <;> simp_all [getContent]
  | vint n => simpa using tryAccess_ok (.vint n)
  | vstr s => simpa using tryAccess_ok (.vstr s)
  | vlist l => simpa using tryAccess_ok (.vlist l)
  | vmsg s => simpa using tryAccess_ok (.vmsg s)
  | vgetter p => simpa using tryAccess_ok (.vgetter p)

/-- C1, witness: a plain string input is not of the raising shape and yields
a returned string. -/
theorem c1_witness :
    raisesShape (.vstr "abc") = false ∧ ∃ s, extract_agent_response (.vstr "abc") = .ok s :=
  ⟨rfl, c1_extract_returns_string (.vstr "abc") rfl⟩

/-! ### Claim C3 -/

/-- C3, counterexample: on the spec's own example input
`{"messages": [{"content": "hello"}]}` the last message is a plain dict,
which has no `.content` attribute, so line 28 of utils.py raises
`AttributeError` instead of returning `"hello"`. -/
theorem c3_counterexample :
    extract_agent_response (.vdict [("messages", .vlist [.vdict [("content", .vstr "hello")]])]) =
      .exn "AttributeError: \x27dict\x27 object has no attribute \x27content\x27" ∧
    extract_agent_response (.vdict [("messages", .vlist [.vdict [("content", .vstr "hello")]])]) ≠
      .ok "hello" := by
  refine ⟨rfl, fun h => ?_⟩
  rw [show extract_agent_response
        (.vdict [("messages", .vlist [.vdict [("content", .vstr "hello")]])]) =
      .exn "AttributeError: \x27dict\x27 object has no attribute \x27content\x27" from rfl] at h
  exact PyResult.noConfusion h

/-- C3, amended: for a dict `{"messages": [m1, ..., mk]}` with `k ≥ 1` whose
last message is an object exposing a `.content` attribute equal to
`"hello"`, `extract_agent_response` returns `"hello"`.  When the last
message is instead a plain dict `{"content": "hello"}`, the attribute
access raises (see the counterexample). -/
theorem c3_last_message_content (msgs : List PyVal)
    (h : msgs.getLast? = some (.vmsg "hello")) :
    extract_agent_response (.vdict [("messages", .vlist msgs)]) = .ok "hello" := by
  have hne : msgs ≠ [] := by
    intro e
    rw [e] at h
    exact Option.noConfusion h
  have hemp : msgs.isEmpty = false := by
    simp [List.isEmpty_iff, hne]
  simp only [extract_agent_response, dictLookup, if_pos rfl, pyTruthy, lastItem, h, hemp,
    Bool.not_false, if_true, getContent]

/-- C3, witness: the singleton message list with a content-bearing message
object. -/
theorem c3_witness :
    extract_agent_response (.vdict [("messages", .vlist [.vmsg "hello"])]) = .ok "hello" :=
  c3_last_message_content [.vmsg "hello"] rfl

/-! ### Claim C4 -/

/-- C4, counterexample: `extract_agent_response(42)` returns `"42"`, not an
error string: `hasattr(42, "get")` is false, so line 34 of utils.py binds
`content = result` and line 35 returns `str(42)`; the substring
`Error accessing result` does not occur in the output. -/
theorem c4_counterexample :
    extract_agent_response (.vint 42) = .ok "42" ∧
    containsSub "Error accessing result".toList "42".toList = false :=
  ⟨rfl, by decide⟩

/-- C4, amended: for any int input, `extract_agent_response` returns the
stringified int itself (the `try` body succeeds, so the error-string path
is never reached). -/
theorem c4_int_returns_str (n : Int) :
    extract_agent_response (.vint n) = .ok (toString n) := rfl

/-! ### Claim C5 -/

/-- C5, counterexample: a plain dict without a `"messages"` key does expose
`.get`, but `dict.get` called with zero arguments raises `TypeError`, so
`extract_agent_response` returns the caught-exception error string, not a
stringified accessor result. -/
theorem c5_counterexample :
    extract_agent_response (.vdict [("a", .vstr "b")]) =
      .ok ("Error accessing result: get expected at least 1 argument, got 0"
        ++ "\nResult type: <class \x27dict\x27>\nResult: \x7b\x27a\x27: \x27b\x27\x7d") := rfl

/-- C5, amended: for an input that is not a dict but exposes a `.get()`
accessor callable with zero arguments, `extract_agent_response` returns
the stringified accessor result; a plain dict without `"messages"` instead
lands on the error string because `dict.get` requires an argument. -/
theorem c5_getter_stringified (p : PyVal) :
    extract_agent_response (.vgetter p) = .ok (pyStr p) := rfl

/-! ### Claim C2 -/

/-- Bool equality of text cells agrees with string equality. -/
theorem sqlText_beq (a b : String) : (SqlVal.text a == SqlVal.text b) = (a == b) := by
  rw [Bool.eq_iff_iff]
  simp [beq_iff_eq]

/-- C2: the CREATE TABLE at utils.py lines 60-68 names the severity column
`log_level`, so the query `SELECT * FROM logs WHERE level = 'ERROR'`
(shown as a working example in the code's own comment at line 104) fails
with `no such column: level` on every store state instead of returning the
ERROR-level rows; the same query on `log_level` does return exactly the
matching rows in insertion order. -/
theorem c2_level_query_fails (recs : List LogRecord) :
    execute_query recs "SELECT * FROM logs WHERE level = \x27ERROR\x27" =
      .error "no such column: level" ∧
    execute_query recs "SELECT * FROM logs WHERE log_level = \x27ERROR\x27" =
      .ok ((recs.filter (fun r => r.log_level == "ERROR")).map starRow) := by
  refine ⟨rfl, ?_⟩
  have hparse : parseQuery "SELECT * FROM logs WHERE log_level = \x27ERROR\x27" =
      .ok ⟨.star, "logs", some ("log_level", "ERROR")⟩ := rfl
  simp only [execute_query, hparse, evalQuery, evalQuery.evalResolved]
  have hmem : ("log_level" : String) ∈ logsCols := by decide
  simp only [if_pos hmem, if_neg (by simp : ¬ ("logs" : String) ≠ "logs")]
  congr 1
  congr 1
  apply List.filter_congr
  intro r _
  rw [show colValue r "log_level" = SqlVal.text r.log_level from rfl, sqlText_beq]

/-! ### Claim C9 -/

/-- C9: `execute_query` wraps `cursor.execute` in no try/except, so a query
the engine rejects — a syntax error, or a reference to a nonexistent
column or table — fails with the engine's error propagated unchanged to
the caller; no retry, no recovery, no result. -/
theorem c9_query_error_propagates (recs : List LogRecord) (q : String) (e : String) (ast : Query) :
    (parseQuery q = .error e → execute_query recs q = .error e) ∧
    (parseQuery q = .ok ast → badRef ast = true → ∃ msg, execute_query recs q = .error msg) := by
  constructor
  · intro h
    simp [execute_query, h]
  · intro h hb
    simp only [execute_query, h]
    obtain ⟨cols, table, whereEq⟩ := ast
    by_cases ht : table = "logs"
    · subst ht
      cases hw : whereEq with
      | some cv =>
        obtain ⟨c, v⟩ := cv
        by_cases hc : c ∈ logsCols
        · have hcols : ∃ c2, cols = .col c2 ∧ c2 ∉ logsCols := by
            cases cols with
            | col c2 =>
              refine ⟨c2, rfl, ?_⟩
              simp [badRef, hw, hc] at hb
              exact hb
            | star => simp [badRef, hw, hc] at hb
            | countStar => simp [badRef, hw, hc] at hb
          obtain ⟨c2, hc2, hnc2⟩ := hcols
          subst hc2
          simp [evalQuery, evalQuery.evalResolved, hc, hnc2]
        · simp [evalQuery, hc]
      | none =>
        have hcols : ∃ c2, cols = .col c2 ∧ c2 ∉ logsCols := by
          cases cols with
          | col c2 =>
            refine ⟨c2, rfl, ?_⟩
            simp [badRef, hw] at hb
            exact hb
          | star => simp [badRef, hw] at hb
          | countStar => simp [badRef, hw] at hb
        obtain ⟨c2, hc2, hnc2⟩ := hcols
        subst hc2
        simp [evalQuery, evalQuery.evalResolved, hnc2]
    · simp [evalQuery, ht]

/-- C9, witness: a non-SELECT statement outside the engine's accepted
grammar fails with its syntax error, and a SELECT from a nonexistent
table fails with the resolution error. -/
theorem c9_witness :
    execute_query [] "DROP TABLE logs" = .error "syntax error" ∧
    (∃ msg, execute_query [] "SELECT * FROM nope" = .error msg) :=
  ⟨(c9_query_error_propagates [] "DROP TABLE logs" "syntax error"
      ⟨.star, "nope", none⟩).1 rfl,
   (c9_query_error_propagates [] "SELECT * FROM nope" "syntax error"
      ⟨.star, "nope", none⟩).2 rfl (by decide)⟩

/-! ### Loader lemmas -/

/-- A well-formed entry is processed into a record carrying the requested
id. -/
theorem processEntry_ok_of_wf (k : Nat) (e : RawEntry) (h : wellFormedE e = true) :
    ∃ rec, processEntry k e = .ok rec ∧ rec.id = k := by
  obtain ⟨aid, msg, lvl, ts⟩ := e
  simp only [wellFormedE, Bool.and_eq_true] at h
  obtain ⟨⟨⟨ha, hm⟩, hl⟩, ht⟩ := h
  cases aid with
  | none => simp at ha
  | some a =>
    cases msg with
    | none => simp at hm
    | some m =>
      cases lvl with
      | none => simp at hl
      | some l =>
        cases ts with
        | none => simp at ht
        | some t =>
          simp only [Option.isSome_iff_exists] at ht
          obtain ⟨d, hd⟩ := ht
          exact ⟨⟨k, a, m, l, toIso d⟩, by simp [processEntry, hd], rfl⟩

/-- A malformed entry aborts processing. -/
theorem processEntry_error_of_not_wf (k : Nat) (e : RawEntry) (h : wellFormedE e = false) :
    ∃ msg, processEntry k e = .error msg := by
  obtain ⟨aid, msg, lvl, ts⟩ := e
  cases ts with
  | none => exact ⟨"KeyError: \x27time\x27", rfl⟩
  | some t =>
    cases hd : parseTimestamp t with
    | none =>
      exact ⟨"ValueError: time data \x27" ++ t ++ "\x27 does not match format \x27%y/%m/%d %H:%M:%S\x27",
        by simp [processEntry, hd]⟩
    | some d =>
      simp only [wellFormedE, hd, Bool.and_eq_true] at h
      cases aid with
      | none => exact ⟨"KeyError: \x27application_id\x27", by simp [processEntry, hd]⟩
      | some a =>
        cases msg with
        | none => exact ⟨"KeyError: \x27message\x27", by simp [processEntry, hd]⟩
        | some m =>
          cases lvl with
          | none => exact ⟨"KeyError: \x27level\x27", by simp [processEntry, hd]⟩
          | some l => simp at h

/-- Loading a list of well-formed entries yields one record per entry, with
consecutive ids starting at `startId`. -/
theorem loadEntries_ok (es : List RawEntry) :
    ∀ k, (∀ e ∈ es, wellFormedE e = true) →
      ∃ rs, loadEntries k es = .ok rs ∧ rs.length = es.length ∧
        rs.map LogRecord.id = List.range' k es.length := by
  induction es with
  | nil => exact fun k _ => ⟨[], rfl, rfl, rfl⟩
  | cons e rest ih =>
    intro k h
    obtain ⟨rec, hrec, hid⟩ := processEntry_ok_of_wf k e (h e (List.mem_cons_self e rest))
    obtain ⟨rs, hrs, hlen, hids⟩ := ih (k + 1) (fun e2 he2 => h e2 (List.mem_cons_of_mem e he2))
    refine ⟨rec :: rs, ?_, ?_, ?_⟩
    · simp [loadEntries, hrec, hrs]
    · simp [hlen]
    · simp only [List.map_cons, hids, hid, List.length_cons, List.range'_succ]

/-- A malformed entry anywhere in the list aborts the whole loop. -/
theorem loadEntries_error (es : List RawEntry) :
    ∀ k, (∃ e ∈ es, wellFormedE e = false) →
      ∃ msg, loadEntries k es = .error msg := by
  induction es with
  | nil => rintro k ⟨e, he, _⟩; exact absurd he (List.not_mem_nil e)
  | cons e rest ih =>
    rintro k ⟨e2, he2, hbad⟩
    rcases List.mem_cons.mp he2 with rfl | hmem
    · obtain ⟨msg, hmsg⟩ := processEntry_error_of_not_wf k e2 hbad
      exact ⟨msg, by simp [loadEntries, hmsg]⟩
    · cases hw : wellFormedE e with
      | false =>
        obtain ⟨msg, hmsg⟩ := processEntry_error_of_not_wf k e hw
        exact ⟨msg, by simp [loadEntries, hmsg]⟩
      | true =>
        obtain ⟨rec, hrec, _⟩ := processEntry_ok_of_wf k e hw
        obtain ⟨msg, hmsg⟩ := ih (k + 1) ⟨e2, hmem, hbad⟩
        exact ⟨msg, by simp [loadEntries, hrec, hmsg]⟩

/-- Master lemma for a clean pass: with every remaining file either absent
or fully well formed, the fold succeeds and appends one record per entry
with consecutive ids, counts every loaded entry, and prints exactly one
line per file. -/
theorem loadFiles_ok (l : List (String × FileState)) :
    ∀ acc, (∀ p ∈ l, goodFile p.2 = true) →
      ∃ res, loadFiles acc l = .ok res ∧
        res.records.length = acc.records.length + sumEntries l ∧
        res.records.map LogRecord.id =
          acc.records.map LogRecord.id ++ List.range' (acc.records.length + 1) (sumEntries l) ∧
        res.total_entries = acc.total_entries + sumEntries l ∧
        res.prints = acc.prints ++ l.map filePrint := by
  induction l with
  | nil => exact fun acc _ => ⟨acc, rfl, by simp [sumEntries], by simp [sumEntries],
      by simp [sumEntries], by simp⟩
  | cons p rest ih =>
    rintro acc h
    obtain ⟨name, st⟩ := p
    have hst : goodFile st = true := h _ (List.mem_cons_self _ _)
    have hrest : ∀ p ∈ rest, goodFile p.2 = true := fun p hp => h p (List.mem_cons_of_mem _ hp)
    cases st with
    | badJson => simp [goodFile] at hst
    | absent =>
      obtain ⟨res, hres, h1, h2, h3, h4⟩ :=
        ih { acc with prints := acc.prints ++ ["Warning: " ++ name ++ " not found, skipping..."] }
          hrest
      refine ⟨res, ?_, ?_, ?_, ?_, ?_⟩
      · simp only [loadFiles, loadFile]
        exact hres
      · simpa [sumEntries, entriesOf] using h1
      · simpa [sumEntries, entriesOf] using h2
      · simpa [sumEntries, entriesOf] using h3
      · rw [h4]
        simp [filePrint]
    | entries es =>
      have hwf : ∀ e ∈ es, wellFormedE e = true := by
        simpa [goodFile, List.all_eq_true] using hst
      obtain ⟨rs, hrs, hlen, hids⟩ := loadEntries_ok es (acc.records.length + 1) hwf
      obtain ⟨res, hres, h1, h2, h3, h4⟩ :=
        ih { records := acc.records ++ rs,
             total_entries := acc.total_entries + es.length,
             prints := acc.prints ++ ["Loaded " ++ toString es.length ++ " entries from " ++ name] }
          hrest
      have hsum : sumEntries ((name, FileState.entries es) :: rest) = es.length + sumEntries rest := by
        simp [sumEntries, entriesOf]
      refine ⟨res, ?_, ?_, ?_, ?_, ?_⟩
      · simp only [loadFiles, loadFile, hrs]
        exact hres
      · simp only [h1, List.length_append, hlen, hsum]
        omega
      · rw [h2, hsum]
        simp only [List.map_append, hids, List.length_append, hlen]
        rw [List.append_assoc]
        congr 1
        have : acc.records.length + es.length + 1 = (acc.records.length + 1) + es.length := by omega
        rw [this, List.range'_append_1]
        rw [Nat.add_comm (sumEntries rest) es.length]
      · rw [h3, hsum]
        dsimp only
        omega
      · rw [h4]
        simp [filePrint]

/-- Master lemma for an aborted pass: a bad file anywhere in the remaining
list makes the fold fail. -/
theorem loadFiles_error (l : List (String × FileState)) :
    ∀ acc, (∃ p ∈ l, goodFile p.2 = false) →
      ∃ msg, loadFiles acc l = .error msg := by
  induction l with
  | nil => rintro acc ⟨p, hp, _⟩; exact absurd hp (List.not_mem_nil p)
  | cons p rest ih =>
    rintro acc ⟨q, hq, hbad⟩
    obtain ⟨name, st⟩ := p
    rcases List.mem_cons.mp hq with rfl | hmem
    · cases st with
      | absent => simp [goodFile] at hbad
      | badJson => exact ⟨"JSONDecodeError: " ++ name, by simp [loadFiles, loadFile]⟩
      | entries es =>
        have : ∃ e ∈ es, wellFormedE e = false := by
          by_contra hall
          push_neg at hall
          have : goodFile (FileState.entries es) = true := by
            simp only [goodFile, List.all_eq_true]
            intro e he
            cases hwe : wellFormedE e with
            | false => exact absurd hwe (hall e he)
            | true => rfl
          rw [this] at hbad
          exact Bool.noConfusion hbad
        obtain ⟨msg, hmsg⟩ := loadEntries_error es (acc.records.length + 1) this
        exact ⟨msg, by simp [loadFiles, loadFile, hmsg]⟩
    · cases hg : goodFile st with
      | false =>
        cases st with
        | absent => simp [goodFile] at hg
        | badJson => exact ⟨"JSONDecodeError: " ++ name, by simp [loadFiles, loadFile]⟩
        | entries es =>
          have : ∃ e ∈ es, wellFormedE e = false := by
            by_contra hall
            push_neg at hall
            have hgood : goodFile (FileState.entries es) = true := by
              simp only [goodFile, List.all_eq_true]
              intro e he
              cases hwe : wellFormedE e with
              | false => exact absurd hwe (hall e he)
              | true => rfl
            rw [hgood] at hg
            exact Bool.noConfusion hg
          obtain ⟨msg, hmsg⟩ := loadEntries_error es (acc.records.length + 1) this
          exact ⟨msg, by simp [loadFiles, loadFile, hmsg]⟩
      | true =>
        cases st with
        | badJson => simp [goodFile] at hg
        | absent =>
          obtain ⟨msg, hmsg⟩ :=
            ih { acc with prints := acc.prints ++ ["Warning: " ++ name ++ " not found, skipping..."] }
              ⟨q, hmem, hbad⟩
          exact ⟨msg, by simp only [loadFiles, loadFile]; exact hmsg⟩
        | entries es =>
          have hwf : ∀ e ∈ es, wellFormedE e = true := by
            simpa [goodFile, List.all_eq_true] using hg
          obtain ⟨rs, hrs, _, _⟩ := loadEntries_ok es (acc.records.length + 1) hwf
          obtain ⟨msg, hmsg⟩ :=
            ih { records := acc.records ++ rs,
                 total_entries := acc.total_entries + es.length,
                 prints := acc.prints ++ ["Loaded " ++ toString es.length ++ " entries from " ++ name] }
              ⟨q, hmem, hbad⟩
          exact ⟨msg, by simp only [loadFiles, loadFile, hrs]; exact hmsg⟩

/-- Summing entry counts over the fixed file list. -/
theorem sumEntries_files (fs : String → FileState) :
    sumEntries (json_files.map (fun n => (n, fs n))) = totalWF fs := by
  simp only [sumEntries, totalWF, List.map_map]
  rfl

/-! ### Claim C7 -/

/-- C7: over input files whose entries are all well formed, initialization
stores exactly one record per entry, and the ids are the contiguous
strictly increasing sequence 1, 2, ..., N in insertion order (SQLite
AUTOINCREMENT), hence unique; the model exposes no mutation of the store
after the load. -/
theorem c7_load_count_and_ids (fs : String → FileState)
    (h : ∀ n ∈ json_files, goodFile (fs n) = true) :
    ∃ res, create_logs_database fs = .ok res ∧
      res.records.length = totalWF fs ∧
      res.records.map LogRecord.id = List.range' 1 (totalWF fs) ∧
      res.total_entries = totalWF fs := by
  have hall : ∀ p ∈ json_files.map (fun n => (n, fs n)), goodFile p.2 = true := by
    intro p hp
    simp only [List.mem_map] at hp
    obtain ⟨n, hn, rfl⟩ := hp
    exact h n hn
  obtain ⟨res, hres, h1, h2, h3, h4⟩ := loadFiles_ok (json_files.map (fun n => (n, fs n)))
    ⟨[], 0, []⟩ hall
  dsimp only at h1 h2 h3 h4
  rw [sumEntries_files] at h1 h2 h3
  refine ⟨{ res with prints := res.prints ++
      ["Total: " ++ toString res.total_entries ++ " log entries loaded into in-memory database"] },
    ?_, ?_, ?_, ?_⟩
  · simp only [create_logs_database, hres]
  · show res.records.length = _
    simpa using h1
  · show res.records.map LogRecord.id = _
    simpa using h2
  · show res.total_entries = _
    simpa using h3

/-- C7, witness: two well-formed files (one absent in between) produce three
records with ids 1, 2, 3. -/
theorem c7_witness :
    ∃ res, create_logs_database fsW = .ok res ∧
      res.records.length = 3 ∧
      res.records.map LogRecord.id = List.range' 1 3 ∧
      res.total_entries = 3 := by
  obtain ⟨res, hres, h1, h2, h3⟩ := c7_load_count_and_ids fsW (by decide)
  have ht : totalWF fsW = 3 := by decide
  rw [ht] at h1 h2 h3
  exact ⟨res, hres, h1, h2, h3⟩

/-! ### Claim C8 -/

/-- C8: when every present file is well formed, a missing file is not fatal:
the load completes, counts exactly the entries of the present files, and
logs one warning line per missing file. -/
theorem c8_missing_files_skipped (fs : String → FileState)
    (h : ∀ n ∈ json_files, goodFile (fs n) = true) :
    ∃ res, create_logs_database fs = .ok res ∧
      res.total_entries = totalWF fs ∧
      ∀ n ∈ json_files, fs n = .absent →
        ("Warning: " ++ n ++ " not found, skipping...") ∈ res.prints := by
  have hall : ∀ p ∈ json_files.map (fun n => (n, fs n)), goodFile p.2 = true := by
    intro p hp
    simp only [List.mem_map] at hp
    obtain ⟨n, hn, rfl⟩ := hp
    exact h n hn
  obtain ⟨res, hres, h1, h2, h3, h4⟩ := loadFiles_ok (json_files.map (fun n => (n, fs n)))
    ⟨[], 0, []⟩ hall
  dsimp only at h1 h2 h3 h4
  rw [sumEntries_files] at h3
  refine ⟨{ res with prints := res.prints ++
      ["Total: " ++ toString res.total_entries ++ " log entries loaded into in-memory database"] },
    ?_, ?_, ?_⟩
  · simp only [create_logs_database, hres]
  · show res.total_entries = _
    simpa using h3
  · intro n hn habs
    show _ ∈ res.prints ++ _
    apply List.mem_append_left
    rw [h4]
    apply List.mem_append_right
    have hfp : filePrint (n, fs n) = "Warning: " ++ n ++ " not found, skipping..." := by
      rw [habs]
      simp [filePrint]
    rw [← hfp]
    exact List.mem_map_of_mem filePrint (List.mem_map_of_mem _ hn)

/-- C8, witness: with all three source files absent, initialization
completes with zero entries loaded and a warning for each file. -/
theorem c8_witness :
    ∃ res, create_logs_database (fun _ => FileState.absent) = .ok res ∧
      res.total_entries = 0 ∧
      ("Warning: oom.json not found, skipping...") ∈ res.prints := by
  obtain ⟨res, hres, htot, hwarn⟩ :=
    c8_missing_files_skipped (fun _ => FileState.absent) (by decide)
  exact ⟨res, hres, htot.trans (by decide), hwarn "oom.json" (by decide) rfl⟩

/-! ### Claim C10 -/

/-- C10: the only exception the load loop catches is `FileNotFoundError`
(the absent-file case), so a present file that is malformed — invalid
JSON, an entry missing a required key, or an unparsable timestamp — makes
`create_logs_database` abort with the uncaught exception: no store is
returned and the malformed entry is not skipped. -/
theorem c10_malformed_aborts (fs : String → FileState)
    (h : ∃ n ∈ json_files, goodFile (fs n) = false) :
    ∃ msg, create_logs_database fs = .error msg := by
  obtain ⟨n, hn, hbad⟩ := h
  have hex : ∃ p ∈ json_files.map (fun m => (m, fs m)), goodFile p.2 = false :=
    ⟨(n, fs n), List.mem_map_of_mem _ hn, hbad⟩
  obtain ⟨msg, hmsg⟩ := loadFiles_error (json_files.map (fun m => (m, fs m))) ⟨[], 0, []⟩ hex
  exact ⟨msg, by simp [create_logs_database, hmsg]⟩

/-- C10, witness: a present file with invalid JSON aborts initialization. -/
theorem c10_witness :
    ∃ msg, create_logs_database
      (fun n => if n = "disk.json" then FileState.badJson else FileState.absent) =
        .error msg :=
  c10_malformed_aborts _ ⟨"disk.json", by decide, rfl⟩

/-! ### Claim C6 -/

/-- A parsed digit value is at most 9. -/
theorem digit?_le_nine (c : Char) (a : Nat) (h : digit? c = some a) : a ≤ 9 := by
  unfold digit? at h
  split at h
  · injection h with h2
    omega
  · exact Option.noConfusion h

/-- The two-digit year field is below 100. -/
theorem parse2Digits_lt (l : List Char) (v : Nat) (r : List Char)
    (h : parse2Digits l = some (v, r)) : v < 100 := by
  match l with
  | [] => exact Option.noConfusion h
  | [c] => exact Option.noConfusion h
  | c1 :: c2 :: rest =>
    simp only [parse2Digits] at h
    cases h1 : digit? c1 with
    | none => rw [h1] at h; simp at h
    | some a =>
      cases h2 : digit? c2 with
      | none => rw [h1, h2] at h; simp at h
      | some b =>
        rw [h1, h2] at h
        simp at h
        have ha := digit?_le_nine c1 a h1
        have hb := digit?_le_nine c2 b h2
        omega

/-- A one-or-two-digit field value either passed the two-digit test or is a
single digit. -/
theorem parseNumField_bound (two one : Nat → Bool) (l : List Char) (v : Nat) (r : List Char)
    (h : parseNumField two one l = some (v, r)) : two v = true ∨ v ≤ 9 := by
  match l with
  | [] => exact Option.noConfusion h
  | [c1] =>
    simp only [parseNumField] at h
    cases h1 : digit? c1 with
    | none => rw [h1] at h; simp at h
    | some a =>
      rw [h1] at h
      dsimp only at h
      split at h
      · simp at h
        have := digit?_le_nine c1 a h1
        omega
      · exact Option.noConfusion h
  | c1 :: c2 :: rest =>
    simp only [parseNumField] at h
    cases h1 : digit? c1 with
    | none => rw [h1] at h; simp at h
    | some a =>
      cases h2 : digit? c2 with
      | none =>
        rw [h1, h2] at h
        dsimp only at h
        split at h
        · simp at h
          have := digit?_le_nine c1 a h1
          omega
        · exact Option.noConfusion h
      | some b =>
        rw [h1, h2] at h
        dsimp only at h
        split at h
        · simp at h
          obtain ⟨hv, -⟩ := h
          subst hv
          left
          assumption
        · split at h
          · simp at h
            have := digit?_le_nine c1 a h1
            omega
          · exact Option.noConfusion h

/-- Field bounds guaranteed by a successful `strptime`: the `%y` window puts
the year in 1969-2068, and every other field fits its calendar range. -/
theorem parseTimestamp_bounds (s : String) (dt : DateTime) (h : parseTimestamp s = some dt) :
    1969 ≤ dt.year ∧ dt.year ≤ 2068 ∧ dt.month ≤ 12 ∧ dt.day ≤ 31 ∧
      dt.hour ≤ 23 ∧ dt.minute ≤ 59 ∧ dt.second ≤ 59 := by
  unfold parseTimestamp at h
  split at h
  · exact Option.noConfusion h
  next yy r1 heq1 =>
  split at h
  · exact Option.noConfusion h
  next r2 heq2 =>
  split at h
  · exact Option.noConfusion h
  next m r3 heq3 =>
  split at h
  · exact Option.noConfusion h
  next r4 heq4 =>
  split at h
  · exact Option.noConfusion h
  next da r5 heq5 =>
  split at h
  · exact Option.noConfusion h
  next r6 heq6 =>
  split at h
  · exact Option.noConfusion h
  next hr r7 heq7 =>
  split at h
  · exact Option.noConfusion h
  next r8 heq8 =>
  split at h
  · exact Option.noConfusion h
  next mi r9 heq9 =>
  split at h
  · exact Option.noConfusion h
  next r10 heq10 =>
  split at h
  · exact Option.noConfusion h
  next sec r11 heq11 =>
  dsimp only at h
  have hyy := parse2Digits_lt _ _ _ heq1
  have hm := parseNumField_bound _ _ _ _ _ heq3
  have hda := parseNumField_bound _ _ _ _ _ heq5
  have hhr := parseNumField_bound _ _ _ _ _ heq7
  have hmi := parseNumField_bound _ _ _ _ _ heq9
  have hsec := parseNumField_bound _ _ _ _ _ heq11
  simp only [Bool.and_eq_true, decide_eq_true_eq] at hm hda hhr hmi hsec
  split at h
  case isFalse => exact Option.noConfusion h
  split at h <;> (split at h
                  case isFalse => exact Option.noConfusion h) <;>
    (injection h with h2; subst h2;
     refine ⟨?_, ?_, ?_, ?_, ?_, ?_, ?_⟩ <;> dsimp only <;> omega)

/-- Parsing a rendered digit gives the digit back. -/
theorem digit?_digitChar (k : Nat) (h : k < 10) : digit? (Nat.digitChar k) = some k := by
  interval_cases k <;> rfl

/-- Rendered `mod 10` digits always parse back. -/
theorem digit?_digitChar_mod (x : Nat) : digit? (Nat.digitChar (x % 10)) = some (x % 10) :=
  digit?_digitChar _ (Nat.mod_lt x (by omega))

/-- Reading the stored ISO string back yields the very `DateTime` that was
stored: the adapter string round-trips the instant. -/
theorem parseIso_toIso (d : DateTime) (hy1 : 1969 ≤ d.year) (hy : d.year ≤ 2068)
    (hmo : d.month ≤ 12) (hda : d.day ≤ 31) (hh : d.hour ≤ 23) (hmi : d.minute ≤ 59)
    (hs : d.second ≤ 59) : parseIso (toIso d) = some d := by
  obtain ⟨y, mo, da, hr, mi, se⟩ := d
  simp only [toIso, parseIso, pad4, pad2, String.toList, List.cons_append, List.nil_append]
  rw [if_pos (by decide)]
  simp only [digit?_digitChar_mod]
  simp only [Option.some.injEq, DateTime.mk.injEq]
  dsimp only at hy1 hy hmo hda hh hmi hs
  refine ⟨?_, ?_, ?_, ?_, ?_, ?_⟩ <;> omega

/-- C6: for a well-formed entry, the parsed timestamp is stored as the
adapter's ISO string, a query projecting the `time` column returns that
stored cell verbatim and unchanged, and reading the cell back denotes
exactly the instant `strptime` produced — the parse / store / query
round-trip is the identity on the instant. -/
theorem c6_timestamp_roundtrip (ts aid msg lvl : String) (k : Nat) (d : DateTime)
    (h : parseTimestamp ts = some d) :
    processEntry k ⟨some aid, some msg, some lvl, some ts⟩ =
      .ok ⟨k, aid, msg, lvl, toIso d⟩ ∧
    execute_query [⟨k, aid, msg, lvl, toIso d⟩] "SELECT time FROM logs" =
      .ok [[SqlVal.text (toIso d)]] ∧
    parseIso (toIso d) = some d := by
  obtain ⟨hy1, hy, hmo, hda, hh, hmi, hs⟩ := parseTimestamp_bounds ts d h
  exact ⟨by simp [processEntry, h], rfl, parseIso_toIso d hy1 hy hmo hda hh hmi hs⟩

/-- C6, witness: the two-digit year 99 parses to 1999-12-31 23:59:58, is
stored as its ISO string, and reads back as the same instant. -/
theorem c6_witness :
    parseTimestamp "99/12/31 23:59:58" = some ⟨1999, 12, 31, 23, 59, 58⟩ ∧
    processEntry 1 ⟨some "app", some "oom", some "ERROR", some "99/12/31 23:59:58"⟩ =
      .ok ⟨1, "app", "oom", "ERROR", toIso ⟨1999, 12, 31, 23, 59, 58⟩⟩ ∧
    parseIso (toIso ⟨1999, 12, 31, 23, 59, 58⟩) = some ⟨1999, 12, 31, 23, 59, 58⟩ := by
  have h : parseTimestamp "99/12/31 23:59:58" = some ⟨1999, 12, 31, 23, 59, 58⟩ := by decide
  obtain ⟨h1, h2, h3⟩ :=
    c6_timestamp_roundtrip "99/12/31 23:59:58" "app" "oom" "ERROR" 1 ⟨1999, 12, 31, 23, 59, 58⟩ h
  exact ⟨h, h1, h3⟩
